import Mathlib

/-!
Verification of the discogs-to-musicbrainz migration scripts.

This file gives a shallow embedding of the two Python source files
(export-from-discogs.py and load-into-musicbrainz.py) and proves or refutes
the frozen claims about them.  Python dictionaries loaded from the exported
JSON files are embedded as a `Json` inductive; subscripting a missing key is a
`KeyError`, so fallible dictionary access returns `Except String`.  External
collaborators (the MusicBrainz client library calls) are oracle functions
collected in an environment structure `MBEnv`; the repository code is
translated on top of them, faithfully keeping its error behaviour.
-/

set_option autoImplicit false

/-- Embedding of the Python/JSON values manipulated by the scripts: the
exported record files are JSON, and the importer treats them as nested
dictionaries, lists, strings and integers (`None` is `null`). -/
inductive Json where
  | null : Json
  | str : String → Json
  | num : Int → Json
  | arr : List Json → Json
  | obj : List (String × Json) → Json

/-- Embedding of Python dictionary subscription `d[k]`: a missing key raises
`KeyError`; subscripting a non-dictionary with a string key is a `TypeError`. -/
def Json.getItem : Json → String → Except String Json
  | .obj kvs, k =>
    match kvs.find? (fun p => p.1 == k) with
    | some p => .ok p.2
    | none => .error ("KeyError: " ++ k)
  | _, _ => .error "TypeError"

/-- Embedding of Python `d.get(k)`: returns `None` (here `Json.null`) when the
key is absent; calling `.get` on a non-dictionary is an `AttributeError`. -/
def Json.get : Json → String → Except String Json
  | .obj kvs, k =>
    match kvs.find? (fun p => p.1 == k) with
    | some p => .ok p.2
    | none => .ok .null
  | _, _ => .error "AttributeError"

/-- Python truthiness of a JSON value (`None`, `""`, `0`, `[]` and the empty
dictionary are falsy). -/
def Json.truthy : Json → Bool
  | .null => false
  | .str s => s != ""
  | .num n => n != 0
  | .arr l => !l.isEmpty
  | .obj l => !l.isEmpty

/-- Python truthiness of an optional identifier string (the importer treats
`None` and the empty string as falsy in its `if not master_id` checks). -/
def pyTruthyOpt : Option String → Bool
  | some s => s != ""
  | none => false

/-- A Python dictionary whose values are all strings, as built by
`release_group_info` in load-into-musicbrainz.py. -/
abbrev PyDict := List (String × String)

/-- Embedding of subscripting a string-valued dictionary, raising `KeyError`
when the key is absent. -/
def dictGet (d : PyDict) (k : String) : Except String String :=
  match d.find? (fun p => p.1 == k) with
  | some p => .ok p.2
  | none => .error ("KeyError: " ++ k)

/-! ### URL munging (load-into-musicbrainz.py, `discog_api_url_to_www`)

We model `urllib.parse.urlparse` for the `scheme://netloc/path` URLs this
program handles, ignoring query and fragment components which never occur in
the Discogs API URLs it processes. -/

structure UrlParts where
  scheme : String
  netloc : String
  path : String
deriving DecidableEq

def urlparse (u : String) : UrlParts :=
  match u.splitOn "://" with
  | [] => ⟨"", "", ""⟩
  | [p] => ⟨"", "", p⟩
  | s :: rest =>
    let r := String.intercalate "://" rest
    match r.splitOn "/" with
    | [] => ⟨s, r, ""⟩
    | n :: segs => ⟨s, n, if segs.isEmpty then "" else "/" ++ String.intercalate "/" segs⟩

def urlunparse (p : UrlParts) : String :=
  (if p.scheme.isEmpty then "" else p.scheme ++ "://") ++ p.netloc ++ p.path

/-- Python `s.replace(sub, repl, 1)`: replace only the first occurrence. -/
def replaceFirst (s sub repl : String) : String :=
  match s.splitOn sub with
  | [] => s
  | [_] => s
  | a :: rest => a ++ repl ++ String.intercalate sub rest

/-- Embedding of `discog_api_url_to_www`: swap the api host for the www host
and singularize the first path component for the three entity kinds. -/
def discog_api_url_to_www (api_url : String) : String :=
  let parsed := urlparse api_url
  let fixed : UrlParts := { parsed with netloc := parsed.netloc.replace "api" "www" }
  let fixed :=
    if parsed.path.startsWith "/releases" then
      { fixed with path := replaceFirst parsed.path "releases" "release" }
    else if parsed.path.startsWith "/masters" then
      { fixed with path := replaceFirst parsed.path "masters" "master" }
    else if parsed.path.startsWith "/artists" then
      { fixed with path := replaceFirst parsed.path "artists" "artist" }
    else fixed
  urlunparse fixed

/-! ### The MusicBrainz client oracle -/

/-- One entry of a `*-relation-list` in a `browse_urls` response: its
relation type tag and the identifier of the related target entity. -/
structure Relation where
  rtype : String
  target_id : String
deriving DecidableEq

/-- Result of `musicbrainzngs.browse_urls`: either an HTTP-level
`ResponseError` (for example a 404 for a URL unknown to MusicBrainz) or a
response carrying the requested relation list.  We model responses in which
the relation-list key is present (as it is when the include succeeds). -/
inductive BrowseResult where
  | responseError : BrowseResult
  | ok : List Relation → BrowseResult
deriving DecidableEq

/-- One release group of a search response `release-group-list` entry, with
the fields the importer reads; `extScore` is the numeric value of the
`ext:score` field carried by raw search results. -/
structure RG where
  title : String
  artistCreditPhrase : String
  id : String
  extScore : Nat
deriving DecidableEq

/-- The external MusicBrainz collaborator functions used by the importer:
`browse_urls` keyed by (converted URI, relation type name), `get_release_by_id`
returning the parent release-group identifier of a release (an `Except` error
models an unhandled client exception), and `search_release_groups` keyed by
(query string, optional artist MBID) returning the raw result list. -/
structure MBEnv where
  browse_urls : String → String → BrowseResult
  get_release_by_id : String → Except String String
  search_release_groups : String → Option String → List RG

/-- Embedding of `lookup_mbid_by_discog_url`: convert the API URL to its www
form, browse URLs for the given relation type; a `ResponseError` yields
`None`; otherwise take the first relation whose type is `discogs` (if any)
and return its target identifier. -/
def lookup_mbid_by_discog_url (env : MBEnv) (url : String) (type_name : String) :
    Option String :=
  match env.browse_urls (discog_api_url_to_www url) type_name with
  | .responseError => none
  | .ok relation_list =>
    match relation_list.find? (fun r => r.rtype == "discogs") with
    | some connection => some connection.target_id
    | none => none

/-- Embedding of `lookup_artist_mbids`: map the URL lookup over
`entry["artists"]`, keeping unresolved artists as `none` entries (the source
performs no filtering).  Dictionary access errors propagate. -/
def lookup_artist_mbids (env : MBEnv) (entry : Json) :
    Except String (List (Option String)) := do
  let artists ← entry.getItem "artists"
  match artists with
  | .arr l =>
    l.mapM (fun a => do
      let u ← a.getItem "url"
      match u with
      | .str s => pure (lookup_mbid_by_discog_url env s "artist")
      | _ => Except.error "TypeError")
  | _ => Except.error "TypeError"

/-- Embedding of `lookup_release_mbid`: URL lookup on
`entry["release"]["url"]` with the `release` relation type. -/
def lookup_release_mbid (env : MBEnv) (entry : Json) :
    Except String (Option String) := do
  let rel ← entry.getItem "release"
  let u ← rel.getItem "url"
  match u with
  | .str s => pure (lookup_mbid_by_discog_url env s "release")
  | _ => Except.error "TypeError"

/-- Embedding of `_get_master_mbid`: URL lookup with the `release-group`
relation type. -/
def _get_master_mbid (env : MBEnv) (master_url : String) : Option String :=
  lookup_mbid_by_discog_url env master_url "release-group"

/-! ### Fuzzy search (`search_release_group_by_artists`) -/

/-- Embedding of the inner `release_group_info` helper: it builds a dictionary
with exactly the keys `name`, `artist` and `id` — the `ext:score` field of the
raw result is not carried over. -/
def release_group_info (rg : RG) : PyDict :=
  [("name", rg.title), ("artist", rg.artistCreditPhrase), ("id", rg.id)]

/-- Stable insertion of a keyed element into a descending-sorted keyed list:
an element is placed after every earlier element with an equal or larger key,
matching the stability of the Python sort. -/
def insertByScoreDesc (x : PyDict × Nat) : List (PyDict × Nat) → List (PyDict × Nat)
  | [] => [x]
  | y :: ys => if y.2 < x.2 then x :: y :: ys else y :: insertByScoreDesc x ys

/-- Stable descending sort of a keyed list (insertion sort). -/
def sortPairsByScoreDesc : List (PyDict × Nat) → List (PyDict × Nat)
  | [] => []
  | x :: xs => insertByScoreDesc x (sortPairsByScoreDesc xs)

/-- Embedding of `sorted(rg_results, key=lambda rg: int(rg["ext:score"]), reverse=True)`:
CPython first evaluates the key function on every element (so the sort of a
non-empty list fails as soon as one element lacks the `ext:score` key or its
value does not parse as an integer), then stably sorts the elements by their
keys in descending order.  `sorted([])` never invokes the key function. -/
def sortedByExtScoreDesc (l : List PyDict) : Except String (List PyDict) :=
  match l.mapM (fun d => do
      let s ← dictGet d "ext:score"
      match s.toNat? with
      | some n => pure n
      | none => Except.error "ValueError") with
  | .error e => .error e
  | .ok keys => .ok ((sortPairsByScoreDesc (l.zip keys)).map (fun p => p.1))

/-- Embedding of `discog_entry["release"]["name"]`, the query string of each
search call; the search client expects a string. -/
def entry_release_name (entry : Json) : Except String String := do
  let rel ← entry.getItem "release"
  let n ← rel.getItem "name"
  match n with
  | .str s => pure s
  | _ => Except.error "TypeError"

/-- Embedding of the loop body of `search_release_group_by_artists`.  For each
artist MBID (possibly `none`, since `lookup_artist_mbids` does not filter), the
release title is searched with that artist id; `release_group_list[0]` on an
empty result list is an `IndexError`; a first result scoring above 95 returns
immediately; otherwise results scoring at least 75 are accumulated and the
final accumulated list is sorted (see `sortedByExtScoreDesc`).  The second
component records, in order, the artist-id arguments actually passed to the
search call. -/
def search_rg_loop (env : MBEnv) (entry : Json) :
    List (Option String) → List PyDict →
    Except String (List PyDict) × List (Option String)
  | [], acc => (sortedByExtScoreDesc acc, [])
  | arid :: rest, acc =>
    match entry_release_name entry with
    | .error e => (.error e, [])
    | .ok q =>
      match env.search_release_groups q arid with
      | [] => (.error "IndexError: list index out of range", [arid])
      | top :: more =>
        if top.extScore > 95 then (.ok [release_group_info top], [arid])
        else
          let res := search_rg_loop env entry rest
            (acc ++ ((top :: more).filter (fun rg => 75 ≤ rg.extScore)).map release_group_info)
          (res.1, arid :: res.2)

/-- Embedding of `search_release_group_by_artists` (the loop started with an
empty accumulator). -/
def search_release_group_by_artists (env : MBEnv) (entry : Json)
    (artist_mbids : List (Option String)) :
    Except String (List PyDict) × List (Option String) :=
  search_rg_loop env entry artist_mbids []

/-! ### The resolution cascade (`lookup_master_mbid`) -/

instance {ε α : Type} [DecidableEq ε] [DecidableEq α] : DecidableEq (Except ε α) := fun x y =>
  match x, y with
  | .error a, .error b =>
    if h : a = b then isTrue (by rw [h]) else isFalse (by intro hc; cases hc; exact h rfl)
  | .ok a, .ok b =>
    if h : a = b then isTrue (by rw [h]) else isFalse (by intro hc; cases hc; exact h rfl)
  | .error _, .ok _ => isFalse (by intro hc; cases hc)
  | .ok _, .error _ => isFalse (by intro hc; cases hc)

/-- Outcome of one run of `lookup_master_mbid`, together with which strategies
were invoked: `s1` records whether the direct master-link lookup ran, `s2`
whether the release-then-group lookup ran, `s3` whether the fuzzy-search
strategy ran, and `search_arids` the artist-id arguments passed to the search
call.  `result` is the returned identifier or the raised exception. -/
structure LookupRun where
  s1 : Bool
  s2 : Bool
  s3 : Bool
  search_arids : List (Option String)
  result : Except String (Option String)
deriving DecidableEq

/-- Embedding of the third `if not master_id` block of `lookup_master_mbid`:
look up the artist MBIDs, run the fuzzy search, accept a single result
automatically; otherwise the report `print` evaluates
`discog_entry["release"]["name"]` and then `discog_entry["artist"]["name"]`
(in f-string order) and prints each candidate dictionary, and the (falsy)
`master_id` is returned unchanged. -/
def cascadeStrategy3 (env : MBEnv) (entry : Json) (s1 : Bool)
    (master_id : Option String) : LookupRun :=
  match lookup_artist_mbids env entry with
  | .error e => ⟨s1, true, true, [], .error e⟩
  | .ok artist_ids =>
    let sr := search_release_group_by_artists env entry artist_ids
    match sr.1 with
    | .error e => ⟨s1, true, true, sr.2, .error e⟩
    | .ok results =>
      match results with
      | [r] =>
        match dictGet r "id" with
        | .ok mid => ⟨s1, true, true, sr.2, .ok (some mid)⟩
        | .error e => ⟨s1, true, true, sr.2, .error e⟩
      | _ =>
        match (do
          let rel ← entry.getItem "release"
          let _ ← rel.getItem "name"
          let a ← entry.getItem "artist"
          let _ ← a.getItem "name"
          results.mapM (fun info => do
            let _ ← dictGet info "name"
            let _ ← dictGet info "artist"
            let _ ← dictGet info "id"
            pure ()) : Except String (List Unit)) with
        | .error e => ⟨s1, true, true, sr.2, .error e⟩
        | .ok _ => ⟨s1, true, true, sr.2, .ok master_id⟩

/-- Embedding of the second `if not master_id` block of `lookup_master_mbid`:
look up the release MBID from the release URL relation; if truthy, fetch the
release and take its release-group identifier; then fall through to the third
block when the identifier is still falsy. -/
def cascadeStrategy2 (env : MBEnv) (entry : Json) (s1 : Bool)
    (master_id : Option String) : LookupRun :=
  match lookup_release_mbid env entry with
  | .error e => ⟨s1, true, false, [], .error e⟩
  | .ok release_id =>
    match release_id with
    | some rid =>
      if rid != "" then
        match env.get_release_by_id rid with
        | .error e => ⟨s1, true, false, [], .error e⟩
        | .ok rgid =>
          if pyTruthyOpt (some rgid) then ⟨s1, true, false, [], .ok (some rgid)⟩
          else cascadeStrategy3 env entry s1 (some rgid)
      else if pyTruthyOpt master_id then ⟨s1, true, false, [], .ok master_id⟩
      else cascadeStrategy3 env entry s1 master_id
    | none =>
      if pyTruthyOpt master_id then ⟨s1, true, false, [], .ok master_id⟩
      else cascadeStrategy3 env entry s1 master_id

/-- Embedding of `lookup_master_mbid`: strategy 1 (direct master link) runs
when `entry["release"].get("master_url")` is truthy; if the identifier is
still falsy, strategy 2 (release-then-group) runs; if it is still falsy,
strategy 3 (fuzzy search) runs. -/
def lookup_master_mbid (env : MBEnv) (entry : Json) : LookupRun :=
  match entry.getItem "release" with
  | .error e => ⟨false, false, false, [], .error e⟩
  | .ok rel =>
    match rel.get "master_url" with
    | .error e => ⟨false, false, false, [], .error e⟩
    | .ok mu =>
      if mu.truthy then
        match mu with
        | .str u =>
          let m1 := _get_master_mbid env u
          if pyTruthyOpt m1 then ⟨true, false, false, [], .ok m1⟩
          else cascadeStrategy2 env entry true m1
        | _ => ⟨true, false, false, [], .error "TypeError"⟩
      else cascadeStrategy2 env entry false none

/-! ### Collection submission chunking (`add_release_groups_to_collection`) -/

/-- The slice start indices produced by `range(0, n, step)` for `step > 0`:
`0, step, 2*step, ...` strictly below `n`. -/
def chunkStarts (n step : Nat) : List Nat :=
  (List.range ((n + step - 1) / step)).map (fun i => i * step)

/-- Embedding of the chunking of `add_release_groups_to_collection`: for each
start index produced by `range(0, len(release_groups), 200)` the submitted
chunk is the slice `release_groups[index : index + chunk_size + 1]`, i.e. up
to 201 elements starting at `index`.  Each returned chunk is joined and sent
as one PUT request. -/
def add_release_groups_to_collection {α : Type} (release_groups : List α) :
    List (List α) :=
  (chunkStarts release_groups.length 200).map
    (fun index => ((release_groups.drop index).take (200 + 1)))

/-! ### Ratings import (`import_ratings`) -/

/-- Embedding of `int(entry["rating"])`: the exported rating is a decimal
string (scraped from a data attribute) or an integer; anything else fails. -/
def entryRatingInt (entry : Json) : Except String Int := do
  let r ← entry.getItem "rating"
  match r with
  | .str s =>
    match s.toInt? with
    | some n => pure n
    | none => Except.error "ValueError"
  | .num n => pure n
  | _ => Except.error "TypeError"

/-- Python dictionary insertion `d[k] = v` on an association list kept in
insertion order: an existing key has its value overwritten in place, a new key
is appended. -/
def dictInsert (d : List (String × Int)) (k : String) (v : Int) :
    List (String × Int) :=
  if d.any (fun q => q.1 == k) then
    d.map (fun q => if q.1 == k then (k, v) else q)
  else d ++ [(k, v)]

/-- Embedding of the dictionary comprehension of `import_ratings`:
`{master_mbid: int(entry["rating"]) * 20 for entry in ratings if (master_mbid := lookup_master_mbid(entry))}`.
Entries whose resolution is falsy are skipped; an exception raised by the
resolution or the rating parse propagates; the value expression is evaluated
only for kept entries. -/
def ratingsFold (env : MBEnv) : List Json → List (String × Int) →
    Except String (List (String × Int))
  | [], acc => .ok acc
  | e :: es, acc =>
    match (lookup_master_mbid env e).result with
    | .error err => .error err
    | .ok mid =>
      match mid with
      | some m =>
        if m != "" then
          match entryRatingInt e with
          | .error err => .error err
          | .ok r => ratingsFold env es (dictInsert acc m (r * 20))
        else ratingsFold env es acc
      | none => ratingsFold env es acc

/-- The release-group ratings dictionary submitted by `import_ratings`. -/
def import_ratings_pairs (env : MBEnv) (entries : List Json) :
    Except String (List (String × Int)) :=
  ratingsFold env entries []

/-! ### Export side: URL short form (`DiscogsHtmlClient.url_short_form`)

Python strings are embedded as `List Char` here so that the split/join
reasoning stays structural. -/

/-- Embedding of Python `s.split(c)` for a one-character separator, on
character lists: always returns at least one (possibly empty) piece. -/
def splitOnChar (c : Char) : List Char → List (List Char)
  | [] => [[]]
  | x :: xs =>
    match splitOnChar c xs with
    | [] => [[]]
    | p :: ps => if x = c then [] :: p :: ps else (x :: p) :: ps

/-- Embedding of Python `c.join(pieces)` for a one-character separator. -/
def joinWith (c : Char) : List (List Char) → List Char
  | [] => []
  | [p] => p
  | p :: ps => p ++ c :: joinWith c ps

/-- Embedding of Python `s.split(c, 1)[0]`: the text before the first
occurrence of the separator (the whole string when the separator is absent). -/
def headSplit (c : Char) (s : List Char) : List Char :=
  (splitOnChar c s).headD []

/-- Embedding of `DiscogsHtmlClient.url_short_form`: split the path on `/`,
truncate the last piece at its first `-`, and rejoin. -/
def url_short_form (url_path : List Char) : List Char :=
  let pieces := splitOnChar '/' url_path
  let newLast := headSplit '-' (pieces.getLastD [])
  joinWith '/' (pieces.dropLast ++ [newLast])

/-! ### Export side: pagination loops -/

/-- Embedding of `DiscogsHtmlClient._iter_pages`: starting at page 1, fetch a
page, parse it, stop when a page parses to zero rows, otherwise accumulate the
rows and continue with the next page number.  The explicit fuel bounds the
number of fetches we unfold; `none` means the loop did not terminate within
the fuel.  On termination the result carries the list of fetched page numbers
(in fetch order) and the flattened items. -/
def html_iter_pages {τ α : Type} (api_func : Nat → τ)
    (process_page_func : τ → List α) : Nat → Nat → Option (List Nat × List α)
  | 0, _ => none
  | fuel + 1, pagenum =>
    let page_items := process_page_func (api_func pagenum)
    if page_items.isEmpty then some ([pagenum], [])
    else
      match html_iter_pages api_func process_page_func fuel (pagenum + 1) with
      | none => none
      | some (tr, items) => some (pagenum :: tr, page_items ++ items)

/-- One page of a REST listing response: the items under the root key and the
total page count reported under `pagination.pages`. -/
structure RestPage (α : Type) where
  items : List α
  pages : Nat

/-- Embedding of `DiscogsRestClient._iter_pages`: starting at page 1, fetch a
page, yield its items, stop when the fetched page number equals the reported
total page count, otherwise continue with the next page number.  Fuel and
result as in `html_iter_pages`. -/
def rest_iter_pages {α : Type} (api_func : Nat → RestPage α) :
    Nat → Nat → Option (List Nat × List α)
  | 0, _ => none
  | fuel + 1, pagenum =>
    let resp := api_func pagenum
    if pagenum = resp.pages then some ([pagenum], resp.items)
    else
      match rest_iter_pages api_func fuel (pagenum + 1) with
      | none => none
      | some (tr, items) => some (pagenum :: tr, resp.items ++ items)

/-! ### Export side: the `--include-ratings-master` augmentation -/

/-- Embedding of `_get_master_url` in export-from-discogs.py.  The function
computes the release path and id, then evaluates
`rest_client.release_master_url(release_id)`; the name `rest_client` is not
bound at module scope (it is a local of `export`), so the call raises
`NameError` — as would the misspelt `relase_info` on the following line. -/
def _get_master_url (release_info : Json) : Except String Json := do
  let rel ← release_info.getItem "release"
  let u ← rel.getItem "url"
  match u with
  | .str s =>
    let _release_path := (urlparse s).path
    let _release_id := (_release_path.splitOn "/").getLastD ""
    Except.error "NameError: rest_client is not defined"
  | _ => Except.error "TypeError"

/-- Final state of the `release-ratings.json` file after
`export_release_ratings` (export-from-discogs.py): the content on disk and
the unhandled exception, if one aborted the run. -/
structure ExportOutcome where
  file_content : List Json
  error : Option String

/-- The per-entry augmentation loop of `export_release_ratings`: each entry is
passed through `_get_master_url` in order, and the first exception aborts the
loop. -/
def augmentLoop : List Json → Except String (List Json)
  | [] => .ok []
  | e :: es =>
    match _get_master_url e with
    | .error err => .error err
    | .ok e2 =>
      match augmentLoop es with
      | .error err => .error err
      | .ok rest => .ok (e2 :: rest)

/-- Embedding of the module-level `export_release_ratings`: the scraped
rating info is written to the file first; with `include_master` each entry is
passed through `_get_master_url` in order, and the file is rewritten with the
augmented entries only after the whole loop succeeds.  An exception leaves the
original content on disk. -/
def export_release_ratings (rating_info : List Json) (include_master : Bool) :
    ExportOutcome :=
  if include_master then
    match augmentLoop rating_info with
    | .error e => ⟨rating_info, some e⟩
    | .ok updated => ⟨updated, none⟩
  else ⟨rating_info, none⟩

/-! ## Claims -/

set_option maxRecDepth 100000 in
/-- Claim C1 (code bug evaluation): submitting 450 resolved identifiers does
not produce batches of sizes 200, 200 and 50 with every identifier in exactly
one batch; because the slice is `release_groups[index : index + chunk_size + 1]`
the code produces batches of sizes 201, 201 and 50, the identifiers at
positions 200 and 400 each appear in two batches, and the batches together
hold 452 (not 450) submissions. -/
theorem C1_chunking_off_by_one :
    (add_release_groups_to_collection (List.range 450)).map List.length = [201, 201, 50] ∧
    (add_release_groups_to_collection (List.range 450)).flatten.count 200 = 2 ∧
    (add_release_groups_to_collection (List.range 450)).flatten.count 400 = 2 ∧
    (add_release_groups_to_collection (List.range 450)).flatten.length = 452 := by
  refine ⟨?_, ?_, ?_, ?_⟩ <;> decide

/-- Claim C2: for every record whose `master_url` is present (a truthy string)
and whose external-link lookup for that URL returns a (truthy) target
identifier, the cascade returns that identifier, and neither the
release-then-group strategy nor the fuzzy-search strategy is invoked. -/
theorem C2_master_link_short_circuit (env : MBEnv) (entry rel : Json) (u m : String)
    (hrel : entry.getItem "release" = .ok rel)
    (hmu : rel.get "master_url" = .ok (.str u))
    (hu : u ≠ "")
    (hlook : _get_master_mbid env u = some m)
    (hm : m ≠ "") :
    lookup_master_mbid env entry = ⟨true, false, false, [], .ok (some m)⟩ := by
  simp only [lookup_master_mbid, hrel, hmu, Json.truthy, hlook, pyTruthyOpt]
  simp [hu, hm]

/-- A concrete release dictionary for the C2 witness. -/
def relC2 : Json :=
  .obj [("name", .str "Album"),
        ("url", .str "https://api.discogs.com/releases/1"),
        ("master_url", .str "https://api.discogs.com/masters/9")]

/-- A concrete exported record for the C2 witness. -/
def entryC2 : Json :=
  .obj [("artists", .arr [.obj [("name", .str "Band"),
                                ("url", .str "https://api.discogs.com/artists/7")]]),
        ("release", relC2),
        ("rating", .num 4)]

/-- An environment for the C2 witness in which every URL browse finds a
discogs-typed relation targeting `mbid-1`. -/
def envC2 : MBEnv :=
  ⟨fun _ _ => .ok [⟨"discogs", "mbid-1"⟩], fun _ => .error "unused", fun _ _ => []⟩

/-- Witness for C2 at a concrete record and environment. -/
theorem C2_master_link_short_circuit_witness :
    lookup_master_mbid envC2 entryC2 = ⟨true, false, false, [], .ok (some "mbid-1")⟩ :=
  C2_master_link_short_circuit envC2 entryC2 relC2
    "https://api.discogs.com/masters/9" "mbid-1" rfl rfl (by decide) rfl (by decide)

/-- A concrete release dictionary without a `master_url` key (strategy 1 is
skipped), used by the C4 evaluation. -/
def relC4 : Json :=
  .obj [("name", .str "Album"), ("url", .str "https://api.discogs.com/releases/1")]

/-- A concrete exported record, well formed for the interchange schema
(`artists`, `release`, `rating` keys only), used by the C4 evaluation. -/
def entryC4 : Json :=
  .obj [("artists", .arr [.obj [("name", .str "Band"),
                                ("url", .str "https://api.discogs.com/artists/7")]]),
        ("release", relC4),
        ("rating", .str "4")]

/-- Environment for C4 case (a): all URL browses miss, and the search returns
a single candidate scoring 80 (one qualifier, none above 95). -/
def envC4a : MBEnv :=
  ⟨fun _ _ => .responseError, fun _ => .error "unused",
   fun _ _ => [⟨"Album", "Band", "rg-80", 80⟩]⟩

/-- Environment for C4 case (b): the search returns two qualifying candidates
scoring 80 and 82. -/
def envC4b : MBEnv :=
  ⟨fun _ _ => .responseError, fun _ => .error "unused",
   fun _ _ => [⟨"Album", "Band", "rg-80", 80⟩, ⟨"Album2", "Band", "rg-82", 82⟩]⟩

/-- Environment for C4 case (c): the search returns one candidate scoring 10,
so no candidate qualifies and the report branch is reached. -/
def envC4c : MBEnv :=
  ⟨fun _ _ => .responseError, fun _ => .error "unused",
   fun _ _ => [⟨"Album", "Band", "rg-10", 10⟩]⟩

/-- Claim C4 (code bug evaluation): with exactly one qualifying candidate
(score 80, none above 95) the cascade does not auto-accept it — it raises
`KeyError: ext:score`, because `release_group_info` strips the score key the
final sort then reads; with two qualifying candidates (80 and 82) it raises
the same error instead of reporting them; and when the report branch is
reached (zero candidates) it raises `KeyError: artist`, because exported
records carry an `artists` key but no `artist` key. -/
theorem C4_single_and_ambiguous_crash :
    (lookup_master_mbid envC4a entryC4).result = .error "KeyError: ext:score" ∧
    (lookup_master_mbid envC4b entryC4).result = .error "KeyError: ext:score" ∧
    (lookup_master_mbid envC4c entryC4).result = .error "KeyError: artist" :=
  ⟨rfl, rfl, rfl⟩

/-- A concrete exported record used by the C5 evaluation. -/
def entryC5 : Json :=
  .obj [("artists", .arr [.obj [("name", .str "Band"),
                                ("url", .str "https://api.discogs.com/artists/7")]]),
        ("release", .obj [("name", .str "Album"),
                          ("url", .str "https://api.discogs.com/releases/1")]),
        ("rating", .str "4")]

/-- Environment for C5: every URL browse misses (so the record's one artist
fails to resolve), and the search returns a 96-scoring candidate. -/
def envC5 : MBEnv :=
  ⟨fun _ _ => .responseError, fun _ => .error "unused",
   fun _ _ => [⟨"Album", "Band", "rg-96", 96⟩]⟩

/-- Claim C5 (code bug evaluation): the record's only artist fails to resolve
(its external-link lookup yields nothing), yet the fuzzy-search strategy still
runs the text search for that artist, passing the null identifier through as
the artist argument — unresolved artists are not skipped. -/
theorem C5_unresolved_artist_not_skipped :
    lookup_mbid_by_discog_url envC5 "https://api.discogs.com/artists/7" "artist" = none ∧
    (lookup_master_mbid envC5 entryC5).search_arids = [none] :=
  ⟨rfl, rfl⟩

/-- A concrete exported record used by the C8 evaluation. -/
def entryC8 : Json :=
  .obj [("artists", .arr [.obj [("name", .str "Band"),
                                ("url", .str "https://api.discogs.com/artists/7")]]),
        ("release", .obj [("name", .str "Album"),
                          ("url", .str "https://api.discogs.com/releases/3")]),
        ("rating", .str "4")]

/-- Environment for C8: every URL browse raises a not-found `ResponseError`,
and the search returns an empty result list. -/
def envC8 : MBEnv :=
  ⟨fun _ _ => .responseError, fun _ => .error "unused", fun _ _ => []⟩

/-- Claim C8 (code bug evaluation): a not-found error from the external-link
lookup is indeed treated as a plain no-match (`None`), but a search query that
returns nothing is not — `release_group_list[0]` raises `IndexError`, so the
cascade surfaces an error from a lookup miss instead of proceeding. -/
theorem C8_empty_search_raises :
    lookup_mbid_by_discog_url envC8 "https://api.discogs.com/releases/3" "release" = none ∧
    (lookup_master_mbid envC8 entryC8).result = .error "IndexError: list index out of range" :=
  ⟨rfl, rfl⟩

/-- A concrete exported record used by the C3 counterexample. -/
def entryC3 : Json :=
  .obj [("artists", .arr [.obj [("name", .str "Band"),
                                ("url", .str "https://api.discogs.com/artists/7")]]),
        ("release", .obj [("name", .str "Album"),
                          ("url", .str "https://api.discogs.com/releases/1")]),
        ("rating", .str "4")]

/-- Environment for the C3 counterexample: the search returns candidates with
scores 92, 78, 96 in that order, so the 96-scoring candidate is present but is
not the first element. -/
def envC3 : MBEnv :=
  ⟨fun _ _ => .responseError, fun _ => .error "unused",
   fun _ _ => [⟨"A92", "Band", "rg-92", 92⟩, ⟨"A78", "Band", "rg-78", 78⟩,
               ⟨"A96", "Band", "rg-96", 96⟩]⟩

/-- Counterexample to claim C3 as stated: a candidate set with scores
92, 78, 96 (returned in that order) contains a candidate scoring above 95, yet
the search does not short-circuit and return it alone — the first element
scores 92, so all three are accumulated and the final sort raises
`KeyError: ext:score`. -/
theorem C3_counterexample :
    envC3.search_release_groups "Album" (some "a1") =
      [⟨"A92", "Band", "rg-92", 92⟩, ⟨"A78", "Band", "rg-78", 78⟩,
       ⟨"A96", "Band", "rg-96", 96⟩] ∧
    (search_release_group_by_artists envC3 entryC3 [some "a1"]).1 =
      .error "KeyError: ext:score" ∧
    (search_release_group_by_artists envC3 entryC3 [some "a1"]).1 ≠
      .ok [release_group_info ⟨"A96", "Band", "rg-96", 96⟩] :=
  ⟨rfl, rfl, by decide⟩

/-- Claim C10: with the include-master option enabled and a non-empty exported
ratings list (whose records follow the exported schema, carrying a release
dictionary with a url string), the per-record master-URL augmentation raises
the unhandled name-resolution error on the first record, and the augmented
ratings file is never written — the file keeps its pre-augmentation content. -/
theorem C10_include_master_crashes (e : Json) (es : List Json) (rel : Json) (u : String)
    (hrel : e.getItem "release" = .ok rel)
    (hurl : rel.getItem "url" = .ok (.str u)) :
    export_release_ratings (e :: es) true =
      ⟨e :: es, some "NameError: rest_client is not defined"⟩ := by
  unfold export_release_ratings
  simp [augmentLoop, _get_master_url, hrel, hurl, bind, Except.bind]

/-- A concrete exported ratings record for the C10 witness. -/
def entryC10 : Json :=
  .obj [("artists", .arr [.obj [("name", .str "Band"),
                                ("url", .str "https://api.discogs.com/artists/7")]]),
        ("release", .obj [("name", .str "Album"),
                          ("url", .str "https://api.discogs.com/releases/1")]),
        ("rating", .str "4")]

/-- Witness for C10 at a concrete one-record ratings export. -/
theorem C10_include_master_crashes_witness :
    export_release_ratings [entryC10] true =
      ⟨[entryC10], some "NameError: rest_client is not defined"⟩ :=
  C10_include_master_crashes entryC10 []
    (.obj [("name", .str "Album"), ("url", .str "https://api.discogs.com/releases/1")])
    "https://api.discogs.com/releases/1" rfl rfl

/-- Helper for C3: if every queried result list is non-empty and some artist's
first-listed candidate scores above 95, the search loop short-circuits,
whatever has been accumulated so far, and returns that candidate alone. -/
theorem search_rg_loop_shortcircuit (env : MBEnv) (entry : Json) (q : String)
    (hq : entry_release_name entry = .ok q) :
    ∀ (mbids : List (Option String)) (acc : List PyDict),
      (∀ a ∈ mbids, env.search_release_groups q a ≠ []) →
      (∃ a ∈ mbids, ∃ rg tl, env.search_release_groups q a = rg :: tl ∧ rg.extScore > 95) →
      ∃ a ∈ mbids, ∃ rg tl, env.search_release_groups q a = rg :: tl ∧ rg.extScore > 95 ∧
        (search_rg_loop env entry mbids acc).1 = .ok [release_group_info rg] := by
  intro mbids
  induction mbids with
  | nil =>
    intro acc _ hhit
    simp at hhit
  | cons a rest ih =>
    intro acc hne hhit
    have hnea : env.search_release_groups q a ≠ [] := hne a (by simp)
    cases hsr : env.search_release_groups q a with
    | nil => exact absurd hsr hnea
    | cons top more =>
      by_cases htop : top.extScore > 95
      · refine ⟨a, by simp, top, more, hsr, htop, ?_⟩
        simp [search_rg_loop, hq, hsr, htop]
      · obtain ⟨b, hb, rg, tl, hsrb, hrg⟩ := hhit
        have hbrest : b ∈ rest := by
          rcases List.mem_cons.1 hb with hba | hbr
          · subst hba
            rw [hsr] at hsrb
            injection hsrb with h4 h5
            exact absurd (h4 ▸ hrg) htop
          · exact hbr
        obtain ⟨c, hc, rg2, tl2, h1, h2, h3⟩ :=
          ih (acc ++ ((top :: more).filter (fun rg => 75 ≤ rg.extScore)).map release_group_info)
            (fun x hx => hne x (List.mem_cons_of_mem _ hx)) ⟨b, hbrest, rg, tl, hsrb, hrg⟩
        refine ⟨c, List.mem_cons_of_mem _ hc, rg2, tl2, h1, h2, ?_⟩
        simpa [search_rg_loop, hq, hsr, htop] using h3

/-- Claim C3 (amended): provided every queried artist result list is
non-empty, if some artist's first-listed candidate scores above 95 then the
fuzzy search short-circuits at the first such artist and returns that
candidate alone, ignoring all other candidates.  Result lists arrive sorted
descending by score, so the first-listed candidate is the highest-scoring one
and a candidate set with scores 92, 78, 96 arrives as 96, 92, 78 and yields
the 96-score candidate by itself. -/
theorem C3_first_above_95_short_circuits (env : MBEnv) (entry : Json)
    (q : String) (mbids : List (Option String))
    (hq : entry_release_name entry = .ok q)
    (hne : ∀ a ∈ mbids, env.search_release_groups q a ≠ [])
    (hhit : ∃ a ∈ mbids, ∃ rg tl,
      env.search_release_groups q a = rg :: tl ∧ rg.extScore > 95) :
    ∃ a ∈ mbids, ∃ rg tl, env.search_release_groups q a = rg :: tl ∧
      rg.extScore > 95 ∧
      (search_release_group_by_artists env entry mbids).1 = .ok [release_group_info rg] :=
  search_rg_loop_shortcircuit env entry q hq mbids [] hne hhit

/-- A concrete exported record for the C3 witness. -/
def entryC3w : Json :=
  .obj [("artists", .arr [.obj [("name", .str "Band"),
                                ("url", .str "https://api.discogs.com/artists/7")]]),
        ("release", .obj [("name", .str "Album"),
                          ("url", .str "https://api.discogs.com/releases/1")]),
        ("rating", .str "4")]

/-- Environment for the C3 witness: the search returns the candidate set with
scores 92, 78, 96 sorted descending (96, 92, 78), as the service delivers. -/
def envC3w : MBEnv :=
  ⟨fun _ _ => .responseError, fun _ => .error "unused",
   fun _ _ => [⟨"A96", "Band", "rg-96", 96⟩, ⟨"A92", "Band", "rg-92", 92⟩,
               ⟨"A78", "Band", "rg-78", 78⟩]⟩

/-- Witness for the amended C3 at the 96, 92, 78 candidate set. -/
theorem C3_first_above_95_short_circuits_witness :
    ∃ a ∈ [some "a1"], ∃ rg tl, envC3w.search_release_groups "Album" a = rg :: tl ∧
      rg.extScore > 95 ∧
      (search_release_group_by_artists envC3w entryC3w [some "a1"]).1 =
        .ok [release_group_info rg] :=
  C3_first_above_95_short_circuits envC3w entryC3w "Album" [some "a1"] rfl
    (by decide)
    ⟨some "a1", by decide, ⟨"A96", "Band", "rg-96", 96⟩,
      [⟨"A92", "Band", "rg-92", 92⟩, ⟨"A78", "Band", "rg-78", 78⟩], rfl, by decide⟩

/-- Helper for C7: a pair of the dictionary after `d[k] = v` is either an
original pair or exactly `(k, v)`. -/
theorem dictInsert_mem (d : List (String × Int)) (k : String) (v : Int)
    (p : String × Int) (hp : p ∈ dictInsert d k v) : p ∈ d ∨ p = (k, v) := by
  unfold dictInsert at hp
  by_cases h : d.any (fun q => q.1 == k)
  · rw [if_pos h] at hp
    obtain ⟨q, hq, hfq⟩ := List.mem_map.1 hp
    by_cases h2 : q.1 == k
    · right
      rw [if_pos h2] at hfq
      exact hfq.symm
    · left
      rw [if_neg h2] at hfq
      exact hfq ▸ hq
  · rw [if_neg h] at hp
    rcases List.mem_append.1 hp with h1 | h1
    · exact Or.inl h1
    · exact Or.inr (by simpa using h1)

/-- Helper for C7: every pair of the dictionary built by the ratings fold is
either an accumulator pair or was produced by some entry of the list — a
resolved, truthy master identifier as the key and twenty times the parsed
rating as the value. -/
theorem ratingsFold_mem (env : MBEnv) :
    ∀ (es : List Json) (acc res : List (String × Int)),
      ratingsFold env es acc = .ok res →
      ∀ p ∈ res, p ∈ acc ∨ ∃ e ∈ es, ∃ m r,
        (lookup_master_mbid env e).result = .ok (some m) ∧ m ≠ "" ∧
        entryRatingInt e = .ok r ∧ p = (m, r * 20) := by
  intro es
  induction es with
  | nil =>
    intro acc res hres p hp
    unfold ratingsFold at hres
    injection hres with h
    exact Or.inl (h ▸ hp)
  | cons e es ih =>
    intro acc res hres p hp
    rw [ratingsFold] at hres
    cases hlk : (lookup_master_mbid env e).result with
    | error err => simp only [hlk] at hres; exact absurd hres (by simp)
    | ok mid =>
      simp only [hlk] at hres
      cases mid with
      | none =>
        rcases ih acc res hres p hp with h | ⟨e2, he2, m, r, h1, h2, h3, h4⟩
        · exact Or.inl h
        · exact Or.inr ⟨e2, List.mem_cons_of_mem _ he2, m, r, h1, h2, h3, h4⟩
      | some m =>
        by_cases hm : m = ""
        · subst hm
          simp only [bne_self_eq_false, Bool.false_eq_true, if_false] at hres
          rcases ih acc res hres p hp with h | ⟨e2, he2, m2, r, h1, h2, h3, h4⟩
          · exact Or.inl h
          · exact Or.inr ⟨e2, List.mem_cons_of_mem _ he2, m2, r, h1, h2, h3, h4⟩
        · have hmb : (m != "") = true := by simpa using hm
          simp only [hmb, if_true] at hres
          cases hri : entryRatingInt e with
          | error err => simp only [hri] at hres; exact absurd hres (by simp)
          | ok r =>
            simp only [hri] at hres
            rcases ih (dictInsert acc m (r * 20)) res hres p hp with
              h | ⟨e2, he2, m2, r2, h1, h2, h3, h4⟩
            · rcases dictInsert_mem acc m (r * 20) p h with h5 | h5
              · exact Or.inl h5
              · exact Or.inr ⟨e, List.mem_cons_self _ _, m, r, hlk, hm, hri, h5⟩
            · exact Or.inr ⟨e2, List.mem_cons_of_mem _ he2, m2, r2, h1, h2, h3, h4⟩

/-- Claim C7: every pair of the submitted release-group ratings dictionary
comes from an exported ratings record that resolved to that target identifier,
and its submitted rating value is exactly the parsed source rating multiplied
by 20. -/
theorem C7_rating_times_twenty (env : MBEnv) (entries : List Json)
    (res : List (String × Int)) (p : String × Int)
    (hres : import_ratings_pairs env entries = .ok res) (hp : p ∈ res) :
    ∃ e ∈ entries, ∃ r, (lookup_master_mbid env e).result = .ok (some p.1) ∧
      entryRatingInt e = .ok r ∧ p.2 = r * 20 := by
  rcases ratingsFold_mem env entries [] res hres p hp with h | ⟨e, he, m, r, h1, h2, h3, h4⟩
  · simp at h
  · subst h4
    exact ⟨e, he, r, h1, h3, rfl⟩

/-- A concrete exported ratings record with source rating 4, for the C7
witness. -/
def entryC7 : Json :=
  .obj [("artists", .arr [.obj [("name", .str "Band"),
                                ("url", .str "https://api.discogs.com/artists/7")]]),
        ("release", .obj [("name", .str "Album"),
                          ("url", .str "https://api.discogs.com/releases/1"),
                          ("master_url", .str "https://api.discogs.com/masters/9")]),
        ("rating", .num 4)]

/-- Environment for the C7 witness: the master link resolves to `mbid-7`. -/
def envC7 : MBEnv :=
  ⟨fun _ _ => .ok [⟨"discogs", "mbid-7"⟩], fun _ => .error "unused", fun _ _ => []⟩

/-- Witness for C7: a source rating of 4 is submitted as target rating 80. -/
theorem C7_rating_times_twenty_witness :
    import_ratings_pairs envC7 [entryC7] = .ok [("mbid-7", 80)] ∧
    (∃ e ∈ [entryC7], ∃ r : Int,
      (lookup_master_mbid envC7 e).result = .ok (some "mbid-7") ∧
      entryRatingInt e = .ok r ∧ (80 : Int) = r * 20) :=
  ⟨rfl, C7_rating_times_twenty envC7 [entryC7] [("mbid-7", 80)] ("mbid-7", 80)
    rfl (by decide)⟩

/-- Helper for C9 (HTML loop): if the pages `s, ..., s+n-1` each parse to at
least one row and page `s+n` parses to none, the loop started at page `s` with
enough fuel fetches exactly pages `s..s+n` in order and returns the
concatenation of the parsed pages. -/
theorem html_iter_pages_run {τ α : Type} (api_func : Nat → τ)
    (process : τ → List α) :
    ∀ (n s fuel : Nat), n < fuel →
      (∀ k, s ≤ k → k < s + n → process (api_func k) ≠ []) →
      process (api_func (s + n)) = [] →
      html_iter_pages api_func process fuel s =
        some (List.range' s (n + 1),
          ((List.range' s n).map (fun k => process (api_func k))).flatten) := by
  intro n
  induction n with
  | zero =>
    intro s fuel hfuel _ hstop
    obtain ⟨f, rfl⟩ : ∃ f, fuel = f + 1 := ⟨fuel - 1, by omega⟩
    rw [html_iter_pages]
    simp at hstop
    simp [hstop]
  | succ n ih =>
    intro s fuel hfuel hrun hstop
    obtain ⟨f, rfl⟩ : ∃ f, fuel = f + 1 := ⟨fuel - 1, by omega⟩
    have hs : process (api_func s) ≠ [] := hrun s le_rfl (by omega)
    have hrec := ih (s + 1) f (by omega)
      (fun k h1 h2 => hrun k (by omega) (by omega))
      (by have h : s + (n + 1) = (s + 1) + n := by omega
          rw [h] at hstop; exact hstop)
    rw [html_iter_pages]
    simp only [hrec]
    have hs2 : ¬((process (api_func s)).isEmpty = true) := by
      simpa [List.isEmpty_iff] using hs
    rw [if_neg hs2]
    have h1 : List.range' s (n + 1 + 1) = s :: List.range' (s + 1) (n + 1) := rfl
    have h2 : List.range' s (n + 1) = s :: List.range' (s + 1) n := rfl
    rw [h1, h2]
    simp

/-- Helper for C9 (REST loop): if every page from `s` up to the reported
total `s + n` reports `s + n` total pages, the loop started at page `s` with
enough fuel fetches exactly pages `s..s+n` in order and returns the
concatenation of their item lists. -/
theorem rest_iter_pages_run {α : Type} (api_func : Nat → RestPage α) :
    ∀ (n s fuel : Nat), n < fuel →
      (∀ k, s ≤ k → k ≤ s + n → (api_func k).pages = s + n) →
      rest_iter_pages api_func fuel s =
        some (List.range' s (n + 1),
          ((List.range' s (n + 1)).map (fun k => (api_func k).items)).flatten) := by
  intro n
  induction n with
  | zero =>
    intro s fuel hfuel hpages
    obtain ⟨f, rfl⟩ : ∃ f, fuel = f + 1 := ⟨fuel - 1, by omega⟩
    rw [rest_iter_pages]
    have h : (api_func s).pages = s := by simpa using hpages s le_rfl (by omega)
    simp [h]
  | succ n ih =>
    intro s fuel hfuel hpages
    obtain ⟨f, rfl⟩ : ∃ f, fuel = f + 1 := ⟨fuel - 1, by omega⟩
    have hs : ¬ s = (api_func s).pages := by
      have h := hpages s le_rfl (by omega)
      omega
    have hrec := ih (s + 1) f (by omega)
      (fun k h1 h2 => by
        have h : s + (n + 1) = (s + 1) + n := by omega
        rw [← h]
        exact hpages k (by omega) (by omega))
    rw [rest_iter_pages]
    simp only [hrec]
    rw [if_neg hs]
    have h1 : List.range' s (n + 1 + 1) = s :: List.range' (s + 1) (n + 1) := rfl
    rw [h1]
    simp

/-- Claim C9: both pagination loops start at page 1 and fetch pages strictly
sequentially.  The HTML loop stops at the first page that parses to zero rows
(fetching pages `1..N` when page `N` is the first empty one) and returns the
concatenation of pages `1..N-1` in page order; the REST loop stops when the
fetched page number equals the API-reported total page count `P` (consistently
reported by every page) and returns the concatenation of pages `1..P` in page
order.  In both cases the flattened output is exactly the concatenation of all
pages in source order. -/
theorem C9_pagination :
    (∀ (τ α : Type) (api_func : Nat → τ) (process : τ → List α) (N fuel : Nat),
      1 ≤ N → N ≤ fuel →
      (∀ k, 1 ≤ k → k < N → process (api_func k) ≠ []) →
      process (api_func N) = [] →
      html_iter_pages api_func process fuel 1 =
        some (List.range' 1 N,
          ((List.range' 1 (N - 1)).map (fun k => process (api_func k))).flatten)) ∧
    (∀ (α : Type) (api_func : Nat → RestPage α) (P fuel : Nat),
      1 ≤ P → P ≤ fuel →
      (∀ k, 1 ≤ k → k ≤ P → (api_func k).pages = P) →
      rest_iter_pages api_func fuel 1 =
        some (List.range' 1 P,
          ((List.range' 1 P).map (fun k => (api_func k).items)).flatten)) := by
  constructor
  · intro τ α api_func process N fuel hN hfuel hrun hstop
    have h := html_iter_pages_run api_func process (N - 1) 1 fuel (by omega)
      (fun k h1 h2 => hrun k h1 (by omega))
      (by have h : 1 + (N - 1) = N := by omega
          rw [h]; exact hstop)
    have h2 : N - 1 + 1 = N := by omega
    rwa [h2] at h
  · intro α api_func P fuel hP hfuel hpages
    have h := rest_iter_pages_run api_func (P - 1) 1 fuel (by omega)
      (fun k h1 h2 => by
        have h3 : 1 + (P - 1) = P := by omega
        rw [h3]
        exact hpages k h1 (by omega))
    have h2 : P - 1 + 1 = P := by omega
    rwa [h2] at h

/-- Witness for C9: an HTML source whose page 3 is the first empty page, and a
REST source reporting 2 total pages, both evaluated concretely. -/
theorem C9_pagination_witness :
    html_iter_pages (fun k => k) (fun k => if k = 3 then [] else [k]) 5 1 =
      some (List.range' 1 3,
        ((List.range' 1 2).map (fun k => if k = 3 then ([] : List Nat) else [k])).flatten) ∧
    rest_iter_pages (fun k => RestPage.mk [k] 2) 5 1 =
      some (List.range' 1 2,
        ((List.range' 1 2).map (fun k => (RestPage.mk [k] 2).items)).flatten) :=
  ⟨C9_pagination.1 Nat Nat (fun k => k) (fun k => if k = 3 then [] else [k]) 3 5
      (by decide) (by decide)
      (fun k h1 h2 => by simp [Nat.ne_of_lt h2]) (by simp),
   C9_pagination.2 Nat (fun k => RestPage.mk [k] 2) 2 5
      (by decide) (by decide) (fun k h1 h2 => rfl)⟩

/-- Helper for C6: a split always yields at least one piece. -/
theorem splitOnChar_ne_nil (c : Char) (s : List Char) : splitOnChar c s ≠ [] := by
  induction s with
  | nil => simp [splitOnChar]
  | cons x xs ih =>
    rw [splitOnChar]
    cases h : splitOnChar c xs with
    | nil => simp
    | cons p ps =>
      by_cases hx : x = c <;> simp [hx]

/-- Helper for C6: no piece of a split contains the separator. -/
theorem mem_splitOnChar_no_sep (c : Char) (s : List Char) :
    ∀ p ∈ splitOnChar c s, c ∉ p := by
  induction s with
  | nil =>
    intro p hp
    simp [splitOnChar] at hp
    simp [hp]
  | cons x xs ih =>
    intro p hp
    rw [splitOnChar] at hp
    cases h : splitOnChar c xs with
    | nil => exact absurd h (splitOnChar_ne_nil c xs)
    | cons q qs =>
      rw [h] at hp
      dsimp only at hp
      by_cases hx : x = c
      · rw [if_pos hx] at hp
        rcases List.mem_cons.1 hp with h1 | h1
        · simp [h1]
        · exact ih p (h ▸ h1)
      · rw [if_neg hx] at hp
        rcases List.mem_cons.1 hp with h1 | h1
        · subst h1
          intro hc
          rcases List.mem_cons.1 hc with h2 | h2
          · exact hx h2.symm
          · exact ih q (h ▸ List.mem_cons_self q qs) h2
        · exact ih p (h ▸ List.mem_cons_of_mem q h1)

/-- Helper for C6: splitting a separator-free piece yields just that piece. -/
theorem splitOnChar_no_sep (c : Char) (p : List Char) (hp : c ∉ p) :
    splitOnChar c p = [p] := by
  induction p with
  | nil => rfl
  | cons x xs ih =>
    have hx : ¬ x = c := fun h => hp (h ▸ List.mem_cons_self x xs)
    have hxs : c ∉ xs := fun h => hp (List.mem_cons_of_mem x h)
    rw [splitOnChar, ih hxs]
    simp [hx]

/-- Helper for C6: splitting a separator-free piece, a separator, then a tail
peels off the piece. -/
theorem splitOnChar_append_cons (c : Char) (p t : List Char) (hp : c ∉ p) :
    splitOnChar c (p ++ c :: t) = p :: splitOnChar c t := by
  induction p with
  | nil =>
    rw [List.nil_append, splitOnChar]
    cases h : splitOnChar c t with
    | nil => exact absurd h (splitOnChar_ne_nil c t)
    | cons q qs => simp
  | cons x p2 ih =>
    have hx : ¬ x = c := fun h => hp (h ▸ List.mem_cons_self x p2)
    have hp2 : c ∉ p2 := fun h => hp (List.mem_cons_of_mem x h)
    rw [List.cons_append, splitOnChar, ih hp2]
    cases h : splitOnChar c t with
    | nil => exact absurd h (splitOnChar_ne_nil c t)
    | cons q qs => simp [hx]

/-- Helper for C6: splitting a join of separator-free pieces recovers the
pieces. -/
theorem splitOnChar_joinWith (c : Char) :
    ∀ (l : List (List Char)), l ≠ [] → (∀ p ∈ l, c ∉ p) →
      splitOnChar c (joinWith c l) = l := by
  intro l
  induction l with
  | nil => intro h; exact absurd rfl h
  | cons p ps ih =>
    intro _ hfree
    cases ps with
    | nil =>
      show splitOnChar c (joinWith c [p]) = [p]
      rw [joinWith]
      exact splitOnChar_no_sep c p (hfree p (List.mem_cons_self p []))
    | cons q rest =>
      have h1 : joinWith c (p :: q :: rest) = p ++ c :: joinWith c (q :: rest) := rfl
      rw [h1, splitOnChar_append_cons c p _ (hfree p (List.mem_cons_self p _)),
        ih (by simp) (fun r hr => hfree r (List.mem_cons_of_mem p hr))]

/-- Helper for C6: the first piece of a split of a separator-free list is the
list itself. -/
theorem headSplit_no_sep (c : Char) (s : List Char) (hs : c ∉ s) :
    headSplit c s = s := by
  unfold headSplit
  rw [splitOnChar_no_sep c s hs]
  rfl

/-- Helper for C6: the first piece of a split never contains the separator. -/
theorem headSplit_not_mem (c : Char) (s : List Char) : c ∉ headSplit c s := by
  unfold headSplit
  cases h : splitOnChar c s with
  | nil => exact absurd h (splitOnChar_ne_nil c s)
  | cons p ps =>
    exact mem_splitOnChar_no_sep c s p (h ▸ List.mem_cons_self p ps)

/-- Helper for C6: every character of the first piece of a split occurs in the
split list. -/
theorem mem_of_mem_headSplit (c : Char) (s : List Char) :
    ∀ x ∈ headSplit c s, x ∈ s := by
  induction s with
  | nil => simp [headSplit, splitOnChar]
  | cons y ys ih =>
    intro x hx
    unfold headSplit at hx
    rw [splitOnChar] at hx
    cases h : splitOnChar c ys with
    | nil => exact absurd h (splitOnChar_ne_nil c ys)
    | cons p ps =>
      rw [h] at hx
      dsimp only at hx
      by_cases hy : y = c
      · rw [if_pos hy] at hx
        simp at hx
      · rw [if_neg hy] at hx
        simp only [List.headD_cons] at hx
        rcases List.mem_cons.1 hx with h1 | h1
        · exact h1 ▸ List.mem_cons_self y ys
        · exact List.mem_cons_of_mem y (ih x (by unfold headSplit; rw [h]; exact h1))

/-- Helper for C6: the default last element of a non-empty list is an
element. -/
theorem getLastD_mem_of_ne_nil {α : Type} :
    ∀ (l : List α), l ≠ [] → ∀ (d : α), l.getLastD d ∈ l := by
  intro l
  induction l with
  | nil => intro h; exact absurd rfl h
  | cons a t ih =>
    intro _ d
    cases t with
    | nil => simp
    | cons b t2 =>
      rw [List.getLastD_cons]
      exact List.mem_cons_of_mem a (ih (by simp) a)

/-- Claim C6: `url_short_form` truncates the last path segment at its first
hyphen — on `/release/12345-Album-Name` it yields `/release/12345` — and for
every URL path, applying it to its own output returns the output unchanged. -/
theorem C6_url_short_form_short_and_idempotent :
    url_short_form ("/release/12345-Album-Name".toList) = "/release/12345".toList ∧
    ∀ p : List Char, url_short_form (url_short_form p) = url_short_form p := by
  constructor
  · decide
  · intro p
    have hne : splitOnChar '/' p ≠ [] := splitOnChar_ne_nil '/' p
    have hlastmem : (splitOnChar '/' p).getLastD [] ∈ splitOnChar '/' p :=
      getLastD_mem_of_ne_nil _ hne []
    have hnlfree : '/' ∉ headSplit '-' ((splitOnChar '/' p).getLastD []) := fun hx =>
      mem_splitOnChar_no_sep '/' p _ hlastmem (mem_of_mem_headSplit '-' _ '/' hx)
    have hfree : ∀ q ∈ (splitOnChar '/' p).dropLast ++
        [headSplit '-' ((splitOnChar '/' p).getLastD [])], '/' ∉ q := by
      intro q hq
      rcases List.mem_append.1 hq with h1 | h1
      · exact mem_splitOnChar_no_sep '/' p q (List.dropLast_subset _ h1)
      · rw [List.mem_singleton.1 h1]
        exact hnlfree
    simp only [url_short_form]
    rw [splitOnChar_joinWith '/' _ (by simp) hfree]
    rw [List.getLastD_concat, List.dropLast_concat]
    rw [headSplit_no_sep '-' _ (headSplit_not_mem '-' _)]
